import Mathlib

/-!
Verification development for the drilling-data CSV analysis pipeline
(`crewai_test.py`): the result parser, file-type extractor, summary
formatters, cross-file correlator and the two orchestrator loops are
embedded shallowly as executable Lean functions over `String`/`List Char`.

Python regular-expression searches are modelled by hand-derived scanning
functions with the same leftmost-match and backtracking semantics as the
concrete patterns used in the source (documented at each definition).
Case folding and whitespace are modelled over ASCII.
-/

/-- ASCII model of Python `str.lower` / `re.IGNORECASE` folding. -/
def pyLower (c : Char) : Char :=
  if 'A' ≤ c ∧ c ≤ 'Z' then Char.ofNat (c.toNat + 32) else c

/-- ASCII model of Python `str.upper`. -/
def pyUpper (c : Char) : Char :=
  if 'a' ≤ c ∧ c ≤ 'z' then Char.ofNat (c.toNat - 32) else c

/-- Python regex `\s` over ASCII: space, tab, newline, carriage return,
vertical tab, form feed. -/
def isPySpace (c : Char) : Bool :=
  c = ' ' || c = '\t' || c = '\n' || c = '\r' ||
  c = Char.ofNat 11 || c = Char.ofNat 12

/-- Python regex `\w` over ASCII: `[A-Za-z0-9_]`. -/
def isWordChar (c : Char) : Bool :=
  ('a' ≤ c && c ≤ 'z') || ('A' ≤ c && c ≤ 'Z') ||
  ('0' ≤ c && c ≤ '9') || c = '_'

/-- Python `str.strip()` on a character list (ASCII whitespace). -/
def pyStrip (l : List Char) : List Char :=
  ((l.dropWhile isPySpace).reverse.dropWhile isPySpace).reverse

/-- Python `str.strip('"\'')`: drop quote characters from both ends. -/
def pyStripQuotes (l : List Char) : List Char :=
  let q : Char → Bool := fun c => c = '"' || c = '\''
  ((l.dropWhile q).reverse.dropWhile q).reverse

/-- Python `str.split(sep)` for a single-character separator. -/
def pySplit (sep : Char) : List Char → List (List Char)
  | [] => [[]]
  | c :: cs =>
    let r := pySplit sep cs
    if c = sep then [] :: r
    else
      match r with
      | [] => [[c]]
      | h :: t => (c :: h) :: t

/-- Case-insensitive fixed-string prefix match; returns the remainder
after the pattern on success (models matching a literal under
`re.IGNORECASE` at the current position). -/
def ciPref : List Char → List Char → Option (List Char)
  | [], s => some s
  | _ :: _, [] => none
  | p :: ps, c :: cs => if pyLower p = pyLower c then ciPref ps cs else none

/-- `re.search` start-position scan: try the position-local matcher `f`
at each suffix, leftmost first (including the empty suffix at the end of
the subject, as `re.search` does). -/
def scanFirst {α : Type} (f : List Char → Option α) : List Char → Option α
  | [] => f []
  | s@(_ :: rest) => (f s).orElse (fun _ => scanFirst f rest)

/-- Contiguous-substring test, models Python `pat in s` on lists. -/
def containsSub : List Char → List Char → Bool
  | pat, [] => pat.isEmpty
  | pat, s@(_ :: t) => (ciPrefFullEq pat s) || containsSub pat t
where
  /-- exact (case-sensitive) prefix test -/
  ciPrefFullEq : List Char → List Char → Bool
    | [], _ => true
    | _ :: _, [] => false
    | p :: ps, c :: cs => p = c && ciPrefFullEq ps cs

/-- Whole-word occurrence of a literal pattern, models
`re.search(r'\b' + re.escape(pat) + r'\b', s, re.IGNORECASE)` for
patterns that begin and end with word characters:
a case-insensitive occurrence whose neighbours are non-word or absent. -/
def wwAux (pat : List Char) : Option Char → List Char → Bool
  | _, [] => false
  | prev, s@(c :: rest) =>
    ((match prev with
      | some p => !isWordChar p
      | none => true) &&
     (match ciPref pat s with
      | some rem =>
        match rem with
        | [] => true
        | d :: _ => !isWordChar d
      | none => false)) || wwAux pat (some c) rest

/-- Whole-word match anywhere in the subject. -/
def wholeWord (pat : List Char) (s : List Char) : Bool :=
  wwAux pat none s

/-- Single-value token search, models
`re.search(r'<LABEL>\s*([^\s(]+)', s, re.IGNORECASE)` given a label
matcher: at the leftmost position where the label matches, skip
whitespace greedily and take a maximal nonempty run of characters that
are neither whitespace nor `(` (token and whitespace classes are
disjoint, so the greedy `\s*` never backtracks usefully); if the token
is empty the scan resumes at the next start position. -/
def searchTok (labelM : List Char → Option (List Char)) (s : List Char) :
    Option (List Char) :=
  scanFirst (fun t =>
    match labelM t with
    | none => none
    | some r =>
      let r2 := r.dropWhile isPySpace
      let tok := r2.takeWhile (fun c => !isPySpace c && c ≠ '(')
      if tok.isEmpty then none else some tok) s

/-- First `-` in the list that still has a character after it; returns
the tail after that dash (the lazy `.*?-` under `re.DOTALL` picks the
first dash for which the rest of the pattern can match, and
`\s*(.+?)(?:\n|$)` matches exactly when at least one character follows
the dash). -/
def dashTail : List Char → Option (List Char)
  | [] => none
  | '-' :: c :: cs => some (c :: cs)
  | _ :: cs => dashTail cs

/-- Comment-fragment search, models
`re.search(r'<LABEL>.*?-\s*(.+?)(?:\n|$)', s, re.IGNORECASE | re.DOTALL)`
followed by `.strip()` on the captured group: after the leftmost label
occurrence, take the first dash that has a successor; skip whitespace
greedily (if everything after the dash is whitespace the engine
backtracks one whitespace character into the capture, which strips to
the empty string); the lazy capture then extends to the first newline or
to the end of the subject. -/
def searchCmt (labelM : List Char → Option (List Char)) (s : List Char) :
    Option String :=
  scanFirst (fun t =>
    match labelM t with
    | none => none
    | some r =>
      match dashTail r with
      | none => none
      | some tail =>
        let t2 := tail.dropWhile isPySpace
        if t2.isEmpty then some ""
        else some (String.mk (pyStrip (t2.takeWhile (fun c => c ≠ '\n'))))) s

/-- Token class `[^\s,=]` of the coordinate regex. -/
def isCoordTok (c : Char) : Bool := !isPySpace c && c ≠ ',' && c ≠ '='

/-- Token class `[^\s(,=]` of the Z group of the coordinate regex. -/
def isZTok (c : Char) : Bool := isCoordTok c && c ≠ '('

/-- `,?\s*<pat>` under `re.IGNORECASE`: one optional comma, then greedy
whitespace, then the literal `pat`.  The two `,?` branches are mutually
exclusive here because `pat` starts with a letter, never with `,`. -/
def sepStr (pat : List Char) (u : List Char) : Option (List Char) :=
  match u with
  | ',' :: v => ciPref pat (v.dropWhile isPySpace)
  | _ => ciPref pat (u.dropWhile isPySpace)

/-- Greedy `([^\s,=]+),?\s*<lc>=` with backtracking: the maximal token is
tried first; since `=` is excluded from the token class, the only other
viable split gives back exactly one trailing character `lc` when the
character after the token is `=` (the label letter then comes from the
token's last character). Returns the captured token and the remainder
after `<lc>=`. -/
def tokenThenSep (lc : Char) (s : List Char) : Option (String × List Char) :=
  let t := s.takeWhile isCoordTok
  if t.isEmpty then none
  else
    let u := s.drop t.length
    match sepStr [lc, '='] u with
    | some r => some (String.mk (pyStrip t), r)
    | none =>
      match u with
      | '=' :: u2 =>
        let t2 := t.dropLast
        if !t2.isEmpty && pyLower (t.getLastD ' ') = lc then
          some (String.mk (pyStrip t2), u2)
        else none
      | _ => none

/-- The part of the coordinate regex after `X=`:
`([^\s,=]+),?\s*Y=([^\s,=]+),?\s*Z=([^\s(,=]+)`. -/
def matchXYZ (s : List Char) : Option (String × String × String) :=
  match tokenThenSep 'y' s with
  | none => none
  | some (x, r1) =>
    match tokenThenSep 'z' r1 with
    | none => none
    | some (y, r2) =>
      let z := r2.takeWhile isZTok
      if z.isEmpty then none else some (x, y, String.mk (pyStrip z))

/-- The lazy `.*?<pat>` fragment without `re.DOTALL`: scan forward for a
case-insensitive occurrence of `pat` without crossing a newline, and run
the continuation `k` there; on failure resume one character further. -/
def scanCiOnSameLine {α : Type} (pat : List Char) (k : List Char → Option α) :
    List Char → Option α
  | [] => none
  | s@(c :: rest) =>
    if c = '\n' then none
    else
      (match ciPref pat s with
       | some r => k r
       | none => none).orElse (fun _ => scanCiOnSameLine pat k rest)

/-- Models `re.search(r'COORDINATES:.*?X=([^\s,=]+),?\s*Y=([^\s,=]+),?\s*Z=([^\s(,=]+)', s, re.IGNORECASE)`. -/
def searchCoords (s : List Char) : Option (String × String × String) :=
  scanFirst (fun t =>
    match ciPref "COORDINATES:".data t with
    | some r => scanCiOnSameLine "X=".data matchXYZ r
    | none => none) s

/-- Token class `[^\s,]` of the FROM group ( `=` is allowed here). -/
def isFromTok (c : Char) : Bool := !isPySpace c && c ≠ ','

/-- Token class `[^\s(]` of the TO group. -/
def isToTok (c : Char) : Bool := !isPySpace c && c ≠ '('

/-- One backtracking split of the greedy FROM token at position `l`:
either the full token followed by `,?\s*TO=` in the remainder, or (since
`=` belongs to the FROM token class) a literal `TO=` inside the token
itself with `,?\s*` matching empty there.  The TO capture `[^\s(]+` is
final and maximal but must be nonempty. -/
def tryFromSplit (t u : List Char) (l : Nat) : Option (String × String) :=
  if l = t.length then
    match sepStr "TO=".data u with
    | none => none
    | some r =>
      let tok := r.takeWhile isToTok
      if tok.isEmpty then none
      else some (String.mk (pyStrip t), String.mk (pyStrip tok))
  else
    if l = 0 then none
    else
      match ciPref "TO=".data (t.drop l) with
      | none => none
      | some r =>
        let tok := (r ++ u).takeWhile isToTok
        if tok.isEmpty then none
        else some (String.mk (pyStrip (t.take l)), String.mk (pyStrip tok))

/-- Try token splits from longest to shortest (greedy backtracking). -/
def fromToDescend (t u : List Char) : List Nat → Option (String × String)
  | [] => none
  | l :: ls => (tryFromSplit t u l).orElse (fun _ => fromToDescend t u ls)

/-- The part of the interval regex after `FROM=`:
`([^\s,]+),?\s*TO=([^\s(]+)` with greedy backtracking over the FROM
token length. -/
def matchFromTo (s : List Char) : Option (String × String) :=
  let t := s.takeWhile isFromTok
  if t.isEmpty then none
  else fromToDescend t (s.drop t.length) ((List.range (t.length + 1)).reverse)

/-- Models `re.search(r'DEPTH INTERVALS:.*?FROM=([^\s,]+),?\s*TO=([^\s(]+)', s, re.IGNORECASE)`. -/
def searchFromTo (s : List Char) : Option (String × String) :=
  scanFirst (fun t =>
    match ciPref "DEPTH INTERVALS:".data t with
    | some r => scanCiOnSameLine "FROM=".data matchFromTo r
    | none => none) s

/-- Raw result of the grades regex
`re.search(r'GRADE COLUMNS:\s*(?:\[([^\]]+)\]|([^\s(]+))', s, re.IGNORECASE)`:
`Sum.inl` is the bracketed group 1 content, `Sum.inr` the bare group 2
token (tried only when the bracket alternative fails at this position). -/
def searchGrades (s : List Char) : Option (List Char ⊕ List Char) :=
  scanFirst (fun t =>
    match ciPref "GRADE COLUMNS:".data t with
    | none => none
    | some r =>
      let r2 := r.dropWhile isPySpace
      let bare : Option (List Char ⊕ List Char) :=
        let tok := r2.takeWhile (fun c => !isPySpace c && c ≠ '(')
        if tok.isEmpty then none else some (Sum.inr tok)
      match r2 with
      | '[' :: rest =>
        let content := rest.takeWhile (fun c => c ≠ ']')
        if !content.isEmpty && content.length < rest.length then
          some (Sum.inl content)
        else bare
      | _ => bare) s

/-! ## Parsed column identification record (`parse_column_identification_result`) -/

/-- One single-value semantic field slot: `{"found": ..., "comment": ...}`
with `found = none` modelling Python `None`. -/
structure Slot where
  found : Option String
  comment : String
deriving DecidableEq

/-- The coordinates slot `{"x": ..., "y": ..., "z": ..., "comment": ...}`. -/
structure CoordSlot where
  x : Option String
  y : Option String
  z : Option String
  comment : String
deriving DecidableEq

/-- The grades slot `{"found": [...], "comment": ...}`. -/
structure GradesSlot where
  found : List String
  comment : String
deriving DecidableEq

/-- The full ten-slot record built by `parse_column_identification_result`.
`fromF`/`toF` model the Python keys `"from"`/`"to"` (`from` is reserved
in Lean). -/
structure ParsedCols where
  hole_id : Slot
  coordinates : CoordSlot
  grades : GradesSlot
  fromF : Slot
  toF : Slot
  dip : Slot
  azimuth : Slot
  depth : Slot
  density : Slot
  lithology : Slot
deriving DecidableEq

/-- Single-value field block: token search, `.strip()`, the
`!= "NOT" and "FOUND" not in` rejection, and the comment search. -/
def slotFromTok (labelM : List Char → Option (List Char)) (cs : List Char) :
    Slot :=
  match searchTok labelM cs with
  | some tok =>
    let name := pyStrip tok
    let up := name.map pyUpper
    if up = "NOT".data || containsSub "FOUND".data up then ⟨none, ""⟩
    else ⟨some (String.mk name), (searchCmt labelM cs).getD ""⟩
  | none => ⟨none, ""⟩

/-- Label matcher for the composite label `DEPTH\s*\(AT\):`. -/
def depthAtLabel (t : List Char) : Option (List Char) :=
  match ciPref "DEPTH".data t with
  | some r => ciPref "(AT):".data (r.dropWhile isPySpace)
  | none => none

/-- Coordinate synonym lists of the per-axis fallback scan. -/
def coordXPats : List String := ["XCOLLAR", "X", "EAST", "EASTING", "X_UTM", "XCOORD"]

/-- Y-axis synonyms. -/
def coordYPats : List String := ["YCOLLAR", "Y", "NORTH", "NORTHING", "Y_UTM", "YCOORD"]

/-- Z-axis synonyms. -/
def coordZPats : List String := ["ZCOLLAR", "Z", "ELEV", "ELEVATION", "RL", "Z_UTM", "ZCOORD"]

/-- Depth fallback column-name list (`depth_cols` in the source). -/
def depthCols : List String := ["AT", "DEPTH", "MD", "MEASURED_DEPTH", "FROM_DEPTH", "TO_DEPTH"]

/-- Coordinates block: combined `X=..,Y=..,Z=..` pattern first, otherwise
the per-axis whole-word synonym scan (which leaves the comment empty). -/
def parseCoordinates (cs : List Char) : CoordSlot :=
  match searchCoords cs with
  | some (x, y, z) =>
    { x := some x, y := some y, z := some z,
      comment := (searchCmt (ciPref "COORDINATES:".data) cs).getD "" }
  | none =>
    { x := coordXPats.find? (fun p => wholeWord p.data cs),
      y := coordYPats.find? (fun p => wholeWord p.data cs),
      z := coordZPats.find? (fun p => wholeWord p.data cs),
      comment := "" }

/-- Grades block: bracketed list splits on commas with `strip` and quote
stripping and drops `NOT FOUND` entries; a bare token splits on commas
after a global `NOT FOUND` test; the comment is captured either way. -/
def parseGrades (cs : List Char) : GradesSlot :=
  match searchGrades cs with
  | some (Sum.inl content) =>
    { found := (pySplit ',' content).filterMap (fun g =>
        if !(pyStrip g).isEmpty && !containsSub "NOT FOUND".data (g.map pyUpper) then
          some (String.mk (pyStripQuotes (pyStrip g)))
        else none),
      comment := (searchCmt (ciPref "GRADE COLUMNS:".data) cs).getD "" }
  | some (Sum.inr tok) =>
    { found :=
        if containsSub "NOT FOUND".data (tok.map pyUpper) then []
        else (pySplit ',' tok).filterMap (fun g =>
          if !(pyStrip g).isEmpty then some (String.mk (pyStrip g)) else none),
      comment := (searchCmt (ciPref "GRADE COLUMNS:".data) cs).getD "" }
  | none => { found := [], comment := "" }

/-- Depth-interval block: on a combined `FROM=..,TO=..` match both slots
are filled and share the captured comment. -/
def parseFromTo (cs : List Char) : Slot × Slot :=
  match searchFromTo cs with
  | some (f, t) =>
    let cm := (searchCmt (ciPref "DEPTH INTERVALS:".data) cs).getD ""
    (⟨some f, cm⟩, ⟨some t, cm⟩)
  | none => (⟨none, ""⟩, ⟨none, ""⟩)

/-- Depth block: labelled `DEPTH (AT):` token first (with comment default
`"Depth measurement"` when no comment fragment is present); when the
labelled pattern does not match at all, fall back to the first
`depthCols` entry occurring as a whole word anywhere in the text. -/
def parseDepth (cs : List Char) : Slot :=
  match searchTok depthAtLabel cs with
  | some tok =>
    let name := pyStrip tok
    let up := name.map pyUpper
    if up = "NOT".data || containsSub "FOUND".data up then ⟨none, ""⟩
    else ⟨some (String.mk name), (searchCmt depthAtLabel cs).getD "Depth measurement"⟩
  | none =>
    match depthCols.find? (fun c => wholeWord c.data cs) with
    | some c => ⟨some c, "Depth measurement"⟩
    | none => ⟨none, ""⟩

/-- The record built for a non-empty column-result string; each block is
an independent regex search over the whole text, as in the source. -/
def parseRecord (s : String) : ParsedCols :=
  let cs := s.data
  let ft := parseFromTo cs
  { hole_id := slotFromTok (ciPref "HOLE NAME:".data) cs
    coordinates := parseCoordinates cs
    grades := parseGrades cs
    fromF := ft.1
    toF := ft.2
    dip := slotFromTok (ciPref "DIP:".data) cs
    azimuth := slotFromTok (ciPref "AZIMUTH:".data) cs
    depth := parseDepth cs
    density := slotFromTok (ciPref "DENSITY:".data) cs
    lithology := slotFromTok (ciPref "LITHOLOGY CODE:".data) cs }

/-- `parse_column_identification_result`: returns `{}` (modelled as
`none`) for a falsy input string, otherwise the full ten-slot record. -/
def parse_column_identification_result (s : String) : Option ParsedCols :=
  if s = "" then none else some (parseRecord s)

/-! ## File-type extraction and relevant-field table -/

/-- `\s*(\w+)` tail of the `FILE TYPE:` pattern: skip whitespace, take a
maximal nonempty word; on an empty word resume scanning. -/
def searchWord (labelM : List Char → Option (List Char)) (s : List Char) :
    Option (List Char) :=
  scanFirst (fun t =>
    match labelM t with
    | none => none
    | some r =>
      let w := (r.dropWhile isPySpace).takeWhile isWordChar
      if w.isEmpty then none else some w) s

/-- The known file types, in the fallback scan order of the source. -/
def knownTypes : List String := ["Collar", "Survey", "Assay", "Lithology", "Density"]

/-- `extract_file_type_from_result`: the `FILE TYPE: <word>` label first
(case-insensitive, the captured word returned as written); otherwise a
lowercased substring scan over `knownTypes` in order, first match
winning; `None` for falsy input or no match. -/
def extract_file_type_from_result (s : String) : Option String :=
  if s = "" then none
  else
    match searchWord (ciPref "FILE TYPE:".data) s.data with
    | some w => some (String.mk w)
    | none =>
      let low := s.data.map pyLower
      knownTypes.find? (fun t => containsSub (t.data.map pyLower) low)

/-- `get_relevant_fields_for_file_type`: the fixed per-type table with
default `[]` for unknown keys (exact, case-sensitive match). -/
def get_relevant_fields_for_file_type (file_type : String) : List String :=
  if file_type = "Collar" then ["hole_id", "coordinates"]
  else if file_type = "Survey" then ["hole_id", "dip", "azimuth", "depth"]
  else if file_type = "Assay" then ["hole_id", "from", "to", "grades"]
  else if file_type = "Lithology" then ["hole_id", "from", "to", "lithology"]
  else if file_type = "Density" then ["hole_id", "from", "to", "density"]
  else []

/-! ## Summary formatters -/

/-- One content row of the consolidated summary: the JSON formatter emits
it as a record, the text formatter renders the same four entries as one
fixed-width line (the padding/joining is pure rendering and is abstracted
here). -/
structure Row where
  file_type : String
  field : String
  found : String
  comment : String
deriving DecidableEq

/-- One element of `all_results`: the per-file dict
`{"file": .., "type": .., "columns": .., "validation": ..}`. -/
structure FileRecord where
  file : String
  type : String
  columns : String
  validation : String
deriving DecidableEq

/-- A Python value drawn from a parsed slot lookup: either `None` or a
string (the lookup default `"NOT FOUND"` is itself a string). -/
inductive PyV where
  | vnone : PyV
  | vstr : String → PyV
deriving DecidableEq

/-- Python `str(v)`. -/
def pvStr : PyV → String
  | .vnone => "None"
  | .vstr s => s

/-- Python `v != "NOT FOUND"` (true for `None`). -/
def pvNeqNF : PyV → Bool
  | .vnone => true
  | .vstr s => s ≠ "NOT FOUND"

/-- `parsed_cols.get(field, {}).get("found", "NOT FOUND")`: the default
fires only when the whole record is the empty dict (`none`); otherwise
the key exists and may hold `None`. -/
def getFound (p : Option ParsedCols) (ff : ParsedCols → Option String) : PyV :=
  match p with
  | none => .vstr "NOT FOUND"
  | some r =>
    match ff r with
    | none => .vnone
    | some s => .vstr s

/-- `parsed_cols[field].get("comment", "OK")`: evaluated only under
`found != "NOT FOUND"`, hence only when the record is present; the
`"OK"` default is the (unreachable) empty-dict arm. -/
def pcComment (p : Option ParsedCols) (fc : ParsedCols → String) : String :=
  match p with
  | none => "OK"
  | some r => fc r

/-- `parse_column_identification_result(r.get('columns', ''))`. -/
def parsedOf (r : FileRecord) : Option ParsedCols :=
  parse_column_identification_result r.columns

/-- `extract_file_type_from_result(r['type']) or "Unknown"`. -/
def fileTypeOf (r : FileRecord) : String :=
  (extract_file_type_from_result r.type).getD "Unknown"

/-- The grades list of a possibly-empty parsed record. -/
def gradesListOf (p : Option ParsedCols) : List String :=
  match p with
  | none => []
  | some r => r.grades.found

/-- Single-value field block of the JSON formatter: the emitted row and
the strings added to `identified_cols`
(`if found != "NOT FOUND": identified_cols.add(str(found))`). -/
def sfBlock (cond : Bool) (ft lbl : String) (p : Option ParsedCols)
    (ff : ParsedCols → Option String) (fc : ParsedCols → String) :
    List Row × List String :=
  if cond then
    let fv := getFound p ff
    let cm := if pvNeqNF fv then pcComment p fc else "Not identified"
    ([⟨ft, lbl, pvStr fv, cm⟩], if pvNeqNF fv then [pvStr fv] else [])
  else ([], [])

/-- Coordinates block: three rows (X carries the comment, Y and Z carry
`"OK"`), each axis added to `identified_cols` when `!= "NOT FOUND"`. -/
def coordBlock (cond : Bool) (ft : String) (p : Option ParsedCols) :
    List Row × List String :=
  if cond then
    let xv := getFound p (fun r => r.coordinates.x)
    let yv := getFound p (fun r => r.coordinates.y)
    let zv := getFound p (fun r => r.coordinates.z)
    let cm := if pvNeqNF xv then pcComment p (fun r => r.coordinates.comment)
              else "Not identified"
    ([⟨ft, "Coordinates X", pvStr xv, cm⟩,
      ⟨ft, "Coordinates Y", pvStr yv, "OK"⟩,
      ⟨ft, "Coordinates Z", pvStr zv, "OK"⟩],
     (if pvNeqNF xv then [pvStr xv] else []) ++
     (if pvNeqNF yv then [pvStr yv] else []) ++
     (if pvNeqNF zv then [pvStr zv] else []))
  else ([], [])

/-- Python `", ".join(l)`. -/
def joinComma : List String → String
  | [] => ""
  | [s] => s
  | s :: t => s ++ ", " ++ joinComma t

/-- Grades block: one row with the comma-joined list when the relevant
nonempty list is present; `identified_cols.update(grades)`. -/
def gradesBlock (cond : Bool) (ft : String) (p : Option ParsedCols) :
    List Row × List String :=
  let gl := gradesListOf p
  if cond && !gl.isEmpty then
    ([⟨ft, "Grades", joinComma gl, pcComment p (fun r => r.grades.comment)⟩], gl)
  else ([], [])

/-- The identified-field rows of one file in
`format_consolidated_summary_json`, together with the `identified_cols`
collected while emitting them, in source block order. -/
def jsonFieldRowsAndCols (r : FileRecord) : List Row × List String :=
  let ft := fileTypeOf r
  let p := parsedOf r
  let rel := get_relevant_fields_for_file_type ft
  let b1 := sfBlock (rel.contains "hole_id") ft "Hole ID" p
      (fun pc => pc.hole_id.found) (fun pc => pc.hole_id.comment)
  let b2 := coordBlock (rel.contains "coordinates") ft p
  let b3 := sfBlock (rel.contains "dip") ft "DIP" p
      (fun pc => pc.dip.found) (fun pc => pc.dip.comment)
  let b4 := sfBlock (rel.contains "azimuth") ft "Azimuth" p
      (fun pc => pc.azimuth.found) (fun pc => pc.azimuth.comment)
  let b5 := sfBlock (rel.contains "depth") ft "Depth (AT)" p
      (fun pc => pc.depth.found) (fun pc => pc.depth.comment)
  let b6 := sfBlock (rel.contains "from") ft "FROM (depth)" p
      (fun pc => pc.fromF.found) (fun pc => pc.fromF.comment)
  let b7 := sfBlock (rel.contains "to") ft "TO (depth)" p
      (fun pc => pc.toF.found) (fun pc => pc.toF.comment)
  let b8 := gradesBlock (rel.contains "grades") ft p
  let b9 := sfBlock (rel.contains "density") ft "Density" p
      (fun pc => pc.density.found) (fun pc => pc.density.comment)
  let b10 := sfBlock (rel.contains "lithology") ft "Lithology" p
      (fun pc => pc.lithology.found) (fun pc => pc.lithology.comment)
  (b1.1 ++ b2.1 ++ b3.1 ++ b4.1 ++ b5.1 ++ b6.1 ++ b7.1 ++ b8.1 ++ b9.1 ++ b10.1,
   b1.2 ++ b2.2 ++ b3.2 ++ b4.2 ++ b5.2 ++ b6.2 ++ b7.2 ++ b8.2 ++ b9.2 ++ b10.2)

/-- `all_analyses[file_key].get("columns", [])` guarded by
`if all_analyses and file_key in all_analyses` (only the column list of
an analysis is consumed by the formatters, so the analyses map is
modelled as `file key → column list`). -/
def origColsOf (analyses : List (String × List String)) (r : FileRecord) :
    List String :=
  match analyses.lookup r.file with
  | some cols => cols
  | none => []

/-- The `"(original column)"` row of one unmapped column. -/
def origRow (ft col : String) : Row :=
  ⟨ft, col, "(original column)",
   "Column present in file but not mapped to standard field"⟩

/-- Trailing loop of the JSON formatter: one row per original column not
in `identified_cols`. -/
def jsonOrigRows (analyses : List (String × List String)) (r : FileRecord)
    (ids : List String) : List Row :=
  (origColsOf analyses r).filterMap (fun col =>
    if col ∈ ids then none else some (origRow (fileTypeOf r) col))

/-- All rows `format_consolidated_summary_json` emits for one file. -/
def jsonFileRows (analyses : List (String × List String)) (r : FileRecord) :
    List Row :=
  (jsonFieldRowsAndCols r).1 ++ jsonOrigRows analyses r (jsonFieldRowsAndCols r).2

/-- `format_consolidated_summary_json`: the flat row list over all files. -/
def format_consolidated_summary_json (all_results : List FileRecord)
    (all_analyses : List (String × List String)) : List Row :=
  (all_results.map (jsonFileRows all_analyses)).flatten

/-- Per-type entry of the text formatter's `identified_map`: a dict from
fixed field labels to an identified column name (or a grades list);
later files of the same detected type overwrite earlier entries. -/
structure IdMap where
  holeId : Option String := none
  cx : Option String := none
  cy : Option String := none
  cz : Option String := none
  dipC : Option String := none
  azC : Option String := none
  depthC : Option String := none
  fromC : Option String := none
  toC : Option String := none
  gradesC : Option (List String) := none
  densC : Option String := none
  lithC : Option String := none
deriving DecidableEq

/-- Python truthiness of an optional string (`None` and `""` are falsy). -/
def pyTruthy : Option String → Bool
  | none => false
  | some s => s ≠ ""

/-- `parsed_cols.get(field, {}).get("found")` (default `None`). -/
def getF (p : Option ParsedCols) (ff : ParsedCols → Option String) :
    Option String :=
  match p with
  | none => none
  | some r => ff r

/-- First loop of `format_consolidated_summary`: record each relevant
truthy identified column of one file into the per-type map. -/
def updIdMap (m : IdMap) (r : FileRecord) : IdMap :=
  let p := parsedOf r
  let rel := get_relevant_fields_for_file_type (fileTypeOf r)
  let m := if rel.contains "hole_id" && pyTruthy (getF p (fun pc => pc.hole_id.found))
           then { m with holeId := getF p (fun pc => pc.hole_id.found) } else m
  let m := if rel.contains "coordinates" && pyTruthy (getF p (fun pc => pc.coordinates.x))
           then { m with cx := getF p (fun pc => pc.coordinates.x) } else m
  let m := if rel.contains "coordinates" && pyTruthy (getF p (fun pc => pc.coordinates.y))
           then { m with cy := getF p (fun pc => pc.coordinates.y) } else m
  let m := if rel.contains "coordinates" && pyTruthy (getF p (fun pc => pc.coordinates.z))
           then { m with cz := getF p (fun pc => pc.coordinates.z) } else m
  let m := if rel.contains "dip" && pyTruthy (getF p (fun pc => pc.dip.found))
           then { m with dipC := getF p (fun pc => pc.dip.found) } else m
  let m := if rel.contains "azimuth" && pyTruthy (getF p (fun pc => pc.azimuth.found))
           then { m with azC := getF p (fun pc => pc.azimuth.found) } else m
  let m := if rel.contains "depth" && pyTruthy (getF p (fun pc => pc.depth.found))
           then { m with depthC := getF p (fun pc => pc.depth.found) } else m
  let m := if rel.contains "from" && pyTruthy (getF p (fun pc => pc.fromF.found))
           then { m with fromC := getF p (fun pc => pc.fromF.found) } else m
  let m := if rel.contains "to" && pyTruthy (getF p (fun pc => pc.toF.found))
           then { m with toC := getF p (fun pc => pc.toF.found) } else m
  let m := if rel.contains "grades" && !(gradesListOf p).isEmpty
           then { m with gradesC := some (gradesListOf p) } else m
  let m := if rel.contains "density" && pyTruthy (getF p (fun pc => pc.density.found))
           then { m with densC := getF p (fun pc => pc.density.found) } else m
  let m := if rel.contains "lithology" && pyTruthy (getF p (fun pc => pc.lithology.found))
           then { m with lithC := getF p (fun pc => pc.lithology.found) } else m
  m

/-- The `identified_map` entry for one detected type, built from all
files of the batch in order (dict-overwrite semantics). -/
def buildIdMap (all_results : List FileRecord) (t : String) : IdMap :=
  all_results.foldl (fun m r => if fileTypeOf r = t then updIdMap m r else m) {}

/-- The values of an `identified_map` entry, flattened for the
`identified_cols` membership test of the text formatter. -/
def idMapValues (m : IdMap) : List String :=
  [m.holeId, m.cx, m.cy, m.cz, m.dipC, m.azC, m.depthC, m.fromC, m.toC,
   m.densC, m.lithC].filterMap id ++ m.gradesC.getD []

/-- Identified-field rows of one file in `format_consolidated_summary`
(second loop, lines printed before the original-column rows); content is
identical to the JSON formatter's blocks, only rendering differs. -/
def textFieldRows (r : FileRecord) : List Row :=
  let ft := fileTypeOf r
  let p := parsedOf r
  let rel := get_relevant_fields_for_file_type ft
  (if rel.contains "hole_id" then
    let fv := getFound p (fun pc => pc.hole_id.found)
    [⟨ft, "Hole ID", pvStr fv,
      if pvNeqNF fv then pcComment p (fun pc => pc.hole_id.comment) else "Not identified"⟩]
   else []) ++
  (if rel.contains "coordinates" then
    let xv := getFound p (fun pc => pc.coordinates.x)
    let yv := getFound p (fun pc => pc.coordinates.y)
    let zv := getFound p (fun pc => pc.coordinates.z)
    [⟨ft, "Coordinates X", pvStr xv,
      if pvNeqNF xv then pcComment p (fun pc => pc.coordinates.comment) else "Not identified"⟩,
     ⟨ft, "Coordinates Y", pvStr yv, "OK"⟩,
     ⟨ft, "Coordinates Z", pvStr zv, "OK"⟩]
   else []) ++
  (if rel.contains "dip" then
    let fv := getFound p (fun pc => pc.dip.found)
    [⟨ft, "DIP", pvStr fv,
      if pvNeqNF fv then pcComment p (fun pc => pc.dip.comment) else "Not identified"⟩]
   else []) ++
  (if rel.contains "azimuth" then
    let fv := getFound p (fun pc => pc.azimuth.found)
    [⟨ft, "Azimuth", pvStr fv,
      if pvNeqNF fv then pcComment p (fun pc => pc.azimuth.comment) else "Not identified"⟩]
   else []) ++
  (if rel.contains "depth" then
    let fv := getFound p (fun pc => pc.depth.found)
    [⟨ft, "Depth (AT)", pvStr fv,
      if pvNeqNF fv then pcComment p (fun pc => pc.depth.comment) else "Not identified"⟩]
   else []) ++
  (if rel.contains "from" then
    let fv := getFound p (fun pc => pc.fromF.found)
    [⟨ft, "FROM (depth)", pvStr fv,
      if pvNeqNF fv then pcComment p (fun pc => pc.fromF.comment) else "Not identified"⟩]
   else []) ++
  (if rel.contains "to" then
    let fv := getFound p (fun pc => pc.toF.found)
    [⟨ft, "TO (depth)", pvStr fv,
      if pvNeqNF fv then pcComment p (fun pc => pc.toF.comment) else "Not identified"⟩]
   else []) ++
  (if rel.contains "grades" && !(gradesListOf p).isEmpty then
    [⟨ft, "Grades", joinComma (gradesListOf p), pcComment p (fun pc => pc.grades.comment)⟩]
   else []) ++
  (if rel.contains "density" then
    let fv := getFound p (fun pc => pc.density.found)
    [⟨ft, "Density", pvStr fv,
      if pvNeqNF fv then pcComment p (fun pc => pc.density.comment) else "Not identified"⟩]
   else []) ++
  (if rel.contains "lithology" then
    let fv := getFound p (fun pc => pc.lithology.found)
    [⟨ft, "Lithology", pvStr fv,
      if pvNeqNF fv then pcComment p (fun pc => pc.lithology.comment) else "Not identified"⟩]
   else [])

/-- Original-column rows of one file in the text formatter: its
`identified_cols` come from the per-type `identified_map` entry plus the
current file's truthy parsed coordinates (added regardless of type
relevance, lines 1006-1011 of the source). -/
def textOrigRows (m : IdMap) (analyses : List (String × List String))
    (r : FileRecord) : List Row :=
  let p := parsedOf r
  let ids := idMapValues m ++
    ([getF p (fun pc => pc.coordinates.x), getF p (fun pc => pc.coordinates.y),
      getF p (fun pc => pc.coordinates.z)].filterMap
      (fun o => if pyTruthy o then o else none))
  (origColsOf analyses r).filterMap (fun col =>
    if col ∈ ids then none else some (origRow (fileTypeOf r) col))

/-- All rows the text formatter emits for one file. -/
def textFileRows (m : IdMap) (analyses : List (String × List String))
    (r : FileRecord) : List Row :=
  textFieldRows r ++ textOrigRows m analyses r

/-- `format_consolidated_summary` reduced to its row content: the header,
separators and fixed-width padding are rendering only; the emitted row
sequence is modelled. -/
def format_consolidated_summary (all_results : List FileRecord)
    (all_analyses : List (String × List String)) : List Row :=
  (all_results.map (fun r =>
    textFileRows (buildIdMap all_results (fileTypeOf r)) all_analyses r)).flatten

/-! ## Cross-file correlator -/

/-- The `common_columns` index of `run_analysis` / `run_analysis_api`,
modelled extensionally as a lookup: for batches with more than one
successfully analyzed file, a column name maps to the list of file keys
containing it and their count, kept only when that count exceeds 1. -/
def find_common_columns (analyses : List (String × List String))
    (col : String) : Option (List String × Nat) :=
  if analyses.length > 1 then
    let files_with_col := (analyses.filter (fun a => a.2.contains col)).map (fun a => a.1)
    if files_with_col.length > 1 then some (files_with_col, files_with_col.length)
    else none
  else none

/-! ## Orchestrator models

The inference capability is opaque: each stage invocation of each file
either returns a text (`some t`, the string extracted from the crew
output) or raises (`none`).  `aok` models `"error" not in analysis`. -/

/-- Per-file oracle outcomes for the three stages. -/
structure FileSpec where
  key : String
  aok : Bool
  o1 : Option String
  o2 : Option String
  o3 : Option String
deriving DecidableEq

/-- One stage of the CLI loop `run_analysis`: on success the local
`resultN_str` is assigned the stage text; on an exception only the
object `resultN` is set to the sentinel, and the stored value
`resultN_str if 'resultN_str' in locals() else str(resultN)` falls back
to the *previous* value of the local when one exists (locals persist
across loop iterations).  Returns the new persistent local and the
stored string. -/
def cliStage (prev : Option String) (o : Option String) (sentinel : String) :
    Option String × String :=
  match o with
  | some t => (some t, t)
  | none =>
    match prev with
    | some v => (some v, v)
    | none => (none, sentinel)

/-- One iteration of the `run_analysis` per-file loop. -/
def run_analysis_step (st : Option String × Option String × Option String)
    (f : FileSpec) :
    (Option String × Option String × Option String) × Option FileRecord :=
  if f.aok then
    let s1 := cliStage st.1 f.o1 "Error identifying file type - Task failed"
    let s2 := cliStage st.2.1 f.o2 "Error identifying columns - Task failed"
    let s3 := cliStage st.2.2 f.o3 "Error validating"
    ((s1.1, s2.1, s3.1), some ⟨f.key, s1.2, s2.2, s3.2⟩)
  else (st, none)

/-- The `run_analysis` per-file loop: every stage exception is caught,
so the loop itself never raises; the returned records are the
`results` list. -/
def run_analysis (files : List FileSpec) : List FileRecord :=
  (files.foldl (fun acc f =>
    let s := run_analysis_step acc.1 f
    (s.1, acc.2 ++ s.2.toList)) ((none, none, none), [])).2

/-- The `run_analysis_api` per-file loop.  `b1`/`b2` track whether the
locals `result1`/`result2` have ever been bound (they are assigned only
on a successful `kickoff`); `create_validation_task(validator_agent,
result1, result2)` reads both *outside* any try block, so an unbound
local raises `UnboundLocalError` (modelled `Except.error ()`), which
propagates out of the whole call, losing all records. -/
def run_analysis_api_loop : List FileSpec → Bool → Bool →
    Except Unit (List FileRecord)
  | [], _, _ => .ok []
  | f :: fs, b1, b2 =>
    if f.aok then
      let r1s := match f.o1 with
        | some t => t
        | none => "Error identifying file type"
      let b1 := b1 || f.o1.isSome
      let r2s := match f.o2 with
        | some t => t
        | none => "Error identifying columns"
      let b2 := b2 || f.o2.isSome
      if b1 && b2 then
        let r3s := match f.o3 with
          | some t => t
          | none => "Error validating"
        match run_analysis_api_loop fs b1 b2 with
        | .ok rest => .ok (⟨f.key, r1s, r2s, r3s⟩ :: rest)
        | .error e => .error e
      else .error ()
    else run_analysis_api_loop fs b1 b2

/-- Python `str.endswith(suffix)` on character lists. -/
def pyEndsWith (s suf : List Char) : Bool :=
  s.drop (s.length - suf.length) == suf

/-- File discovery of `run_analysis_api`: keep `.csv` names
(`filename.endswith('.csv')`), key is `filename[:-4]`. -/
def discover_files_api (listing : List String) : List String :=
  listing.filterMap (fun fn =>
    if pyEndsWith fn.data ".csv".data then
      some (String.mk (fn.data.take (fn.data.length - 4)))
    else none)

/-- `run_analysis_api` entry: discovery, the early `return []` when no
CSV files are present, then the per-file loop (`oracle` supplies each
discovered file's analysis flag and stage outcomes). -/
def run_analysis_api (listing : List String) (oracle : String → FileSpec) :
    Except Unit (List FileRecord) :=
  let files := discover_files_api listing
  if files.isEmpty then .ok []
  else run_analysis_api_loop (files.map oracle) false false

/-! ## Auxiliary definitions for the claims -/

/-- Whether a label matcher succeeds at some position of the subject
(the text "contains the label"). -/
def labelOccurs (labelM : List Char → Option (List Char)) : List Char → Bool
  | [] => (labelM []).isSome
  | s@(_ :: t) => (labelM s).isSome || labelOccurs labelM t

/-- Example batch: file `a`, detected `Assay`, identifies `DHID`. -/
def exA : FileRecord := ⟨"a", "FILE TYPE: Assay", "HOLE NAME: DHID - id", ""⟩

/-- Example batch: file `b`, also detected `Assay`, identifies nothing. -/
def exB : FileRecord := ⟨"b", "FILE TYPE: Assay", "", ""⟩

/-- Analyses map of the example batch: file `b` has original column `DHID`. -/
def exAn : List (String × List String) := [("b", ["DHID"])]

/-- Example file whose stage text names the same column for two fields. -/
def exC : FileRecord := ⟨"c", "FILE TYPE: Survey", "DIP: D\nAZIMUTH: D", ""⟩

/-- Analyses map for `exC`: original column `D`. -/
def exAnC : List (String × List String) := [("c", ["D"])]

/-! ## Helper lemmas -/

theorem isSome_false_eq_none {α : Type} {o : Option α} (h : o.isSome = false) :
    o = none := by
  cases o with
  | none => rfl
  | some v => simp at h

theorem scanFirst_nil {α : Type} (f : List Char → Option α) :
    scanFirst f [] = f [] := rfl

theorem scanFirst_cons {α : Type} (f : List Char → Option α) (c : Char)
    (t : List Char) :
    scanFirst f (c :: t) = (f (c :: t)).orElse (fun _ => scanFirst f t) := rfl

theorem searchTok_none_of_no_label (m : List Char → Option (List Char)) :
    ∀ s : List Char, labelOccurs m s = false → searchTok m s = none := by
  intro s
  induction s with
  | nil =>
    intro h
    have h0 : m [] = none := isSome_false_eq_none (by simpa [labelOccurs] using h)
    simp only [searchTok, scanFirst_nil]
    simp only [h0]
  | cons c t ih =>
    intro h
    simp only [labelOccurs, Bool.or_eq_false_iff] at h
    have h0 : m (c :: t) = none := isSome_false_eq_none h.1
    have ht := ih h.2
    simp only [searchTok] at ht ⊢
    rw [scanFirst_cons]
    simp only [h0, Option.orElse]
    exact ht

theorem sfBlock_fst (cond : Bool) (ft lbl : String) (p : Option ParsedCols)
    (ff : ParsedCols → Option String) (fc : ParsedCols → String) :
    (sfBlock cond ft lbl p ff fc).1 =
      if cond then
        [⟨ft, lbl, pvStr (getFound p ff),
          if pvNeqNF (getFound p ff) then pcComment p fc else "Not identified"⟩]
      else [] := by
  cases cond <;> simp [sfBlock]

theorem coordBlock_fst (cond : Bool) (ft : String) (p : Option ParsedCols) :
    (coordBlock cond ft p).1 =
      if cond then
        [⟨ft, "Coordinates X", pvStr (getFound p (fun r => r.coordinates.x)),
          if pvNeqNF (getFound p (fun r => r.coordinates.x)) then
            pcComment p (fun r => r.coordinates.comment)
          else "Not identified"⟩,
         ⟨ft, "Coordinates Y", pvStr (getFound p (fun r => r.coordinates.y)), "OK"⟩,
         ⟨ft, "Coordinates Z", pvStr (getFound p (fun r => r.coordinates.z)), "OK"⟩]
      else [] := by
  cases cond <;> simp [coordBlock]

theorem gradesBlock_fst (cond : Bool) (ft : String) (p : Option ParsedCols) :
    (gradesBlock cond ft p).1 =
      if cond && !(gradesListOf p).isEmpty then
        [⟨ft, "Grades", joinComma (gradesListOf p),
          pcComment p (fun r => r.grades.comment)⟩]
      else [] := by
  by_cases h : (cond && !(gradesListOf p).isEmpty) = true <;> simp [gradesBlock, h]

theorem textFieldRows_eq (r : FileRecord) :
    textFieldRows r = (jsonFieldRowsAndCols r).1 := by
  simp only [textFieldRows, jsonFieldRowsAndCols, sfBlock_fst, coordBlock_fst,
    gradesBlock_fst]

theorem sfBlock_ids (cond : Bool) (ft lbl : String) (p : Option ParsedCols)
    (ff : ParsedCols → Option String) (fc : ParsedCols → String) (c : String)
    (hc : c ∈ (sfBlock cond ft lbl p ff fc).2) :
    ∃ row ∈ (sfBlock cond ft lbl p ff fc).1, row.found = c := by
  cases cond with
  | false => simp [sfBlock] at hc
  | true =>
    by_cases hv : pvNeqNF (getFound p ff) = true
    · simp [sfBlock, hv] at hc ⊢
      exact hc.symm
    · simp [sfBlock, hv] at hc

theorem coordBlock_ids (cond : Bool) (ft : String) (p : Option ParsedCols)
    (c : String) (hc : c ∈ (coordBlock cond ft p).2) :
    ∃ row ∈ (coordBlock cond ft p).1, row.found = c := by
  cases cond with
  | false => simp [coordBlock] at hc
  | true =>
    simp only [coordBlock, if_true, List.mem_append] at hc
    rcases hc with (hc | hc) | hc
    · refine ⟨⟨ft, "Coordinates X", pvStr (getFound p (fun r => r.coordinates.x)),
        if pvNeqNF (getFound p (fun r => r.coordinates.x)) then
          pcComment p (fun r => r.coordinates.comment)
        else "Not identified"⟩, by simp [coordBlock], ?_⟩
      by_cases hv : pvNeqNF (getFound p (fun r => r.coordinates.x)) = true <;>
        simp [hv] at hc <;> simp [hc]
    · refine ⟨⟨ft, "Coordinates Y", pvStr (getFound p (fun r => r.coordinates.y)), "OK"⟩, by simp [coordBlock], ?_⟩
      by_cases hv : pvNeqNF (getFound p (fun r => r.coordinates.y)) = true <;>
        simp [hv] at hc <;> simp [hc]
    · refine ⟨⟨ft, "Coordinates Z", pvStr (getFound p (fun r => r.coordinates.z)), "OK"⟩, by simp [coordBlock], ?_⟩
      by_cases hv : pvNeqNF (getFound p (fun r => r.coordinates.z)) = true <;>
        simp [hv] at hc <;> simp [hc]

theorem gradesBlock_ids (cond : Bool) (ft : String) (p : Option ParsedCols)
    (c : String) (hc : c ∈ (gradesBlock cond ft p).2) :
    ∃ row ∈ (gradesBlock cond ft p).1,
      row.field = "Grades" ∧ c ∈ gradesListOf p := by
  by_cases h : (cond && !(gradesListOf p).isEmpty) = true
  · simp only [gradesBlock, h, if_true] at hc ⊢
    exact ⟨⟨ft, "Grades", joinComma (gradesListOf p),
      pcComment p (fun r => r.grades.comment)⟩, by simp, rfl, hc⟩
  · simp [gradesBlock, h] at hc

theorem ex_app_l {l1 l2 : List Row} {P : Row → Prop} (h : ∃ x ∈ l1, P x) :
    ∃ x ∈ l1 ++ l2, P x := by
  obtain ⟨x, hx, hp⟩ := h
  exact ⟨x, List.mem_append.mpr (Or.inl hx), hp⟩

theorem ex_app_r {l1 l2 : List Row} {P : Row → Prop} (h : ∃ x ∈ l2, P x) :
    ∃ x ∈ l1 ++ l2, P x := by
  obtain ⟨x, hx, hp⟩ := h
  exact ⟨x, List.mem_append.mpr (Or.inr hx), hp⟩

theorem jsonIds_appear (r : FileRecord) (c : String)
    (hc : c ∈ (jsonFieldRowsAndCols r).2) :
    ∃ row ∈ (jsonFieldRowsAndCols r).1,
      row.found = c ∨ (row.field = "Grades" ∧ c ∈ gradesListOf (parsedOf r)) := by
  simp only [jsonFieldRowsAndCols] at hc ⊢
  rcases List.mem_append.mp hc with hc | h
  case inr =>
    obtain ⟨row, hm, he⟩ := sfBlock_ids _ _ _ _ _ _ c h
    exact ex_app_r ⟨row, hm, Or.inl he⟩
  rcases List.mem_append.mp hc with hc | h
  case inr =>
    obtain ⟨row, hm, he⟩ := sfBlock_ids _ _ _ _ _ _ c h
    exact ex_app_l (ex_app_r ⟨row, hm, Or.inl he⟩)
  rcases List.mem_append.mp hc with hc | h
  case inr =>
    obtain ⟨row, hm, he⟩ := gradesBlock_ids _ _ _ c h
    exact ex_app_l (ex_app_l (ex_app_r ⟨row, hm, Or.inr he⟩))
  rcases List.mem_append.mp hc with hc | h
  case inr =>
    obtain ⟨row, hm, he⟩ := sfBlock_ids _ _ _ _ _ _ c h
    exact ex_app_l (ex_app_l (ex_app_l (ex_app_r ⟨row, hm, Or.inl he⟩)))
  rcases List.mem_append.mp hc with hc | h
  case inr =>
    obtain ⟨row, hm, he⟩ := sfBlock_ids _ _ _ _ _ _ c h
    exact ex_app_l (ex_app_l (ex_app_l (ex_app_l
      (ex_app_r ⟨row, hm, Or.inl he⟩))))
  rcases List.mem_append.mp hc with hc | h
  case inr =>
    obtain ⟨row, hm, he⟩ := sfBlock_ids _ _ _ _ _ _ c h
    exact ex_app_l (ex_app_l (ex_app_l (ex_app_l (ex_app_l
      (ex_app_r ⟨row, hm, Or.inl he⟩)))))
  rcases List.mem_append.mp hc with hc | h
  case inr =>
    obtain ⟨row, hm, he⟩ := sfBlock_ids _ _ _ _ _ _ c h
    exact ex_app_l (ex_app_l (ex_app_l (ex_app_l (ex_app_l (ex_app_l
      (ex_app_r ⟨row, hm, Or.inl he⟩))))))
  rcases List.mem_append.mp hc with hc | h
  case inr =>
    obtain ⟨row, hm, he⟩ := sfBlock_ids _ _ _ _ _ _ c h
    exact ex_app_l (ex_app_l (ex_app_l (ex_app_l (ex_app_l (ex_app_l (ex_app_l
      (ex_app_r ⟨row, hm, Or.inl he⟩)))))))
  rcases List.mem_append.mp hc with hc | h
  case inr =>
    obtain ⟨row, hm, he⟩ := coordBlock_ids _ _ _ c h
    exact ex_app_l (ex_app_l (ex_app_l (ex_app_l (ex_app_l (ex_app_l (ex_app_l
      (ex_app_l (ex_app_r ⟨row, hm, Or.inl he⟩))))))))
  case inl =>
    obtain ⟨row, hm, he⟩ := sfBlock_ids _ _ _ _ _ _ c hc
    exact ex_app_l (ex_app_l (ex_app_l (ex_app_l (ex_app_l (ex_app_l (ex_app_l
      (ex_app_l (ex_app_l ⟨row, hm, Or.inl he⟩))))))))

theorem countP_orig_zero (ft : String) (ids : List String) (col : String) :
    ∀ cols : List String, col ∉ cols →
      ((cols.filterMap (fun c =>
          if c ∈ ids then none else some (origRow ft c))).countP
        (fun row => row.field == col)) = 0 := by
  intro cols
  induction cols with
  | nil => intro _; rfl
  | cons a t ih =>
    intro h
    have ha : a ≠ col := by
      intro he
      exact h (he ▸ List.mem_cons_self a t)
    have ht := ih (fun hm => h (List.mem_cons_of_mem a hm))
    by_cases hid : a ∈ ids
    · rw [List.filterMap_cons, if_pos hid]
      exact ht
    · rw [List.filterMap_cons, if_neg hid, List.countP_cons, ht]
      have hp : ((origRow ft a).field == col) = false := by
        simpa [origRow] using ha
      rw [hp]
      rfl

theorem countP_orig (ft : String) (ids : List String) (col : String) :
    ∀ cols : List String, cols.Nodup → col ∈ cols →
      ((cols.filterMap (fun c =>
          if c ∈ ids then none else some (origRow ft c))).countP
        (fun row => row.field == col)) =
        if col ∈ ids then 0 else 1 := by
  intro cols
  induction cols with
  | nil =>
    intro _ h
    simp at h
  | cons a t ih =>
    intro hnd hm
    rcases List.mem_cons.mp hm with he | hm2
    · subst he
      have hnotin : col ∉ t := (List.nodup_cons.mp hnd).1
      have h0 := countP_orig_zero ft ids col t hnotin
      by_cases hid : col ∈ ids
      · simp only [List.filterMap_cons, if_pos hid]
        exact h0
      · rw [List.filterMap_cons, if_neg hid, List.countP_cons, h0, if_neg hid]
        simp [origRow]
    · have ha : a ≠ col := by
        intro he
        subst he
        exact (List.nodup_cons.mp hnd).1 hm2
      have ht := ih (List.nodup_cons.mp hnd).2 hm2
      by_cases hid : a ∈ ids
      · rw [List.filterMap_cons, if_pos hid]
        exact ht
      · rw [List.filterMap_cons, if_neg hid, List.countP_cons, ht]
        have hp : ((origRow ft a).field == col) = false := by
          simpa [origRow] using ha
        rw [hp]
        simp

/-! ## Claims -/

/-- C1, counterexample.  The claim fails on the code in both formatters:
in the batch `[exA, exB]` both files are detected `Assay`; `DHID` is an
original column of file `b` but — because the text formatter's
`identified_map` is keyed by detected type across the whole batch and
file `a` identified `DHID` — it appears zero times among the rows the
text formatter emits for file `b`; and in the JSON formatter the file
`exC` names column `D` for both DIP and Azimuth, so `D` appears twice
among that file's rows. -/
theorem C1_counterexample :
    ("DHID" ∈ origColsOf exAn exB
      ∧ (textFileRows (buildIdMap [exA, exB] (fileTypeOf exB)) exAn exB).countP
          (fun row => row.found == "DHID"
            || (row.field == "DHID" && row.found == "(original column)")) = 0
      ∧ format_consolidated_summary [exA, exB] exAn
          = textFileRows (buildIdMap [exA, exB] (fileTypeOf exA)) exAn exA
            ++ textFileRows (buildIdMap [exA, exB] (fileTypeOf exB)) exAn exB)
    ∧ ("D" ∈ origColsOf exAnC exC
      ∧ (jsonFileRows exAnC exC).countP
          (fun row => row.found == "D"
            || (row.field == "D" && row.found == "(original column)")) = 2) := by
  decide

/-- C1 (amended): in the JSON summary formatter, for every file and
every column of its original (duplicate-free) column list, the column
receives exactly one `"(original column)"` row when it is not among the
collected `identified_cols`, and zero such rows when it is; and whenever
it is among `identified_cols`, some identified-field row of that file
mentions it — as that row's found value, or as a member of the grades
list joined into the Grades row.  (The text formatter satisfies this
only when no other file of the batch shares the detected type, as the
counterexample shows; a column can also appear as the found value of
more than one field row.) -/
theorem C1_amended (analyses : List (String × List String)) (r : FileRecord)
    (col : String) (hnd : (origColsOf analyses r).Nodup)
    (hmem : col ∈ origColsOf analyses r) :
    ((jsonOrigRows analyses r (jsonFieldRowsAndCols r).2).countP
        (fun row => row.field == col) =
      if col ∈ (jsonFieldRowsAndCols r).2 then 0 else 1)
    ∧ (col ∈ (jsonFieldRowsAndCols r).2 →
        ∃ row ∈ (jsonFieldRowsAndCols r).1,
          row.found = col
            ∨ (row.field = "Grades" ∧ col ∈ gradesListOf (parsedOf r))) := by
  constructor
  · exact countP_orig (fileTypeOf r) (jsonFieldRowsAndCols r).2 col
      (origColsOf analyses r) hnd hmem
  · intro hin
    exact jsonIds_appear r col hin

/-- C1 (amended), witness at a concrete input: file `exA` has original
columns `["DHID", "EXTRA"]`; `DHID` is identified (zero original-column
rows, and the Hole ID row carries it), `EXTRA` is not. -/
theorem C1_amended_witness :
    ((jsonOrigRows [("a", ["DHID", "EXTRA"])] exA (jsonFieldRowsAndCols exA).2).countP
        (fun row => row.field == "DHID") =
      if "DHID" ∈ (jsonFieldRowsAndCols exA).2 then 0 else 1)
    ∧ ("DHID" ∈ (jsonFieldRowsAndCols exA).2 →
        ∃ row ∈ (jsonFieldRowsAndCols exA).1,
          row.found = "DHID"
            ∨ (row.field = "Grades" ∧ "DHID" ∈ gradesListOf (parsedOf exA))) :=
  C1_amended [("a", ["DHID", "EXTRA"])] exA "DHID" (by decide) (by decide)

/-- C2, counterexample: for the empty column-result text the parser
returns the empty record `{}` (modelled `none`) with no slots at all,
not a ten-slot record with explicit absent values. -/
theorem C2_counterexample : parse_column_identification_result "" = none := by
  rfl

/-- C2 (amended): for every *non-empty* column-result text the parser
returns the fixed ten-slot record (whose unmatched slots hold explicit
absent values by construction); only the falsy empty string yields `{}`. -/
theorem C2_amended (s : String) (h : s ≠ "") :
    ∃ r : ParsedCols, parse_column_identification_result s = some r := by
  refine ⟨parseRecord s, ?_⟩
  simp [parse_column_identification_result, h]

/-- C2 (amended), witness: a text matching no pattern still yields the
full record. -/
theorem C2_amended_witness :
    ∃ r : ParsedCols,
      parse_column_identification_result "no patterns here" = some r :=
  C2_amended "no patterns here" (by decide)

/-- C3: evaluation of the orchestrator models at the failing inputs.
In `run_analysis`, when file `b`'s stage-1 call raises after file `a`
succeeded, the stored type of `b` is file `a`'s stale stage-1 text — not
the sentinel — because `'result1_str' in locals()` is satisfied by the
previous iteration's local.  In `run_analysis_api`, when the first
file's stage-1 call raises, `create_validation_task(validator_agent,
result1, result2)` reads the never-bound local `result1` and the
resulting `UnboundLocalError` propagates out of the whole batch. -/
theorem C3_failing_eval :
    run_analysis
        [⟨"a", true, some "FILE TYPE: Collar", some "ca", some "va"⟩,
         ⟨"b", true, none, some "cb", some "vb"⟩]
      = [⟨"a", "FILE TYPE: Collar", "ca", "va"⟩,
         ⟨"b", "FILE TYPE: Collar", "cb", "vb"⟩]
    ∧ run_analysis_api_loop [⟨"a", true, none, some "ca", some "va"⟩] false false
      = .error () := by
  exact ⟨rfl, rfl⟩

/-- C4, counterexample: this text contains `FILE TYPE: Assay` verbatim,
yet extraction returns `Collar` — the leftmost `FILE TYPE:` label wins. -/
theorem C4_counterexample :
    extract_file_type_from_result "FILE TYPE: Collar and FILE TYPE: Assay"
        = some "Collar"
      ∧ containsSub "FILE TYPE: Assay".data
          "FILE TYPE: Collar and FILE TYPE: Assay".data = true := by
  decide

/-- C4 (amended): type extraction first searches case-insensitively for
a `FILE TYPE: <word>` label and returns the *first* label's word *as
written in the text*; only if no label matches does it fall back to a
lowercased substring scan over Collar, Survey, Assay, Lithology,
Density in that fixed order, first match winning; in particular a
label-free text containing "lithology" yields `Lithology` provided none
of the earlier-listed names occurs as a substring. -/
theorem C4_amended :
    (∀ (s : String) (w : List Char),
      searchWord (ciPref "FILE TYPE:".data) s.data = some w →
      extract_file_type_from_result s = some (String.mk w))
    ∧ (∀ s : String, s ≠ "" →
        searchWord (ciPref "FILE TYPE:".data) s.data = none →
        extract_file_type_from_result s =
          knownTypes.find? (fun t =>
            containsSub (t.data.map pyLower) (s.data.map pyLower)))
    ∧ (∀ s : String, s ≠ "" →
        searchWord (ciPref "FILE TYPE:".data) s.data = none →
        containsSub ("Lithology".data.map pyLower) (s.data.map pyLower) = true →
        containsSub ("Collar".data.map pyLower) (s.data.map pyLower) = false →
        containsSub ("Survey".data.map pyLower) (s.data.map pyLower) = false →
        containsSub ("Assay".data.map pyLower) (s.data.map pyLower) = false →
        extract_file_type_from_result s = some "Lithology") := by
  refine ⟨?_, ?_, ?_⟩
  · intro s w h
    by_cases hs : s = ""
    · subst hs
      rw [show searchWord (ciPref "FILE TYPE:".data) "".data = none from by decide] at h
      exact absurd h (by simp)
    · simp [extract_file_type_from_result, hs, h]
  · intro s hs h
    simp [extract_file_type_from_result, hs, h]
  · intro s hs h hlith hcol hsur hass
    have h2 : extract_file_type_from_result s =
        knownTypes.find? (fun t =>
          containsSub (t.data.map pyLower) (s.data.map pyLower)) := by
      simp [extract_file_type_from_result, hs, h]
    rw [h2, show knownTypes
        = ["Collar", "Survey", "Assay", "Lithology", "Density"] from rfl]
    rw [List.find?_cons_of_neg _ (by simp only [Bool.not_eq_true]; exact hcol),
        List.find?_cons_of_neg _ (by simp only [Bool.not_eq_true]; exact hsur),
        List.find?_cons_of_neg _ (by simp only [Bool.not_eq_true]; exact hass),
        List.find?_cons_of_pos _ (by exact hlith)]

/-- C4 (amended), witness: the label path at `FILE TYPE: Assay` and the
fallback path at a label-free lithology text. -/
theorem C4_amended_witness :
    extract_file_type_from_result "FILE TYPE: Assay" = some (String.mk "Assay".data)
    ∧ extract_file_type_from_result "this mentions lithology codes" = some "Lithology" :=
  ⟨C4_amended.1 "FILE TYPE: Assay" "Assay".data (by decide),
   C4_amended.2.2 "this mentions lithology codes" (by decide) (by decide)
     (by decide) (by decide) (by decide) (by decide)⟩

/-- C5, counterexample: on the two-file batch `[exA, exB]` (both
detected `Assay`) the text table and the JSON record list do *not*
contain the same rows — the JSON output has an `"(original column)"`
row for `DHID` of file `b` that the text output lacks, because the text
formatter's identified set is shared across files of the same type. -/
theorem C5_counterexample :
    format_consolidated_summary [exA, exB] exAn
      ≠ format_consolidated_summary_json [exA, exB] exAn := by
  decide

/-- C5 (amended): the two formatters emit identical identified-field
rows for every file; they can differ only in the selection of
`"(original column)"` rows, where the text formatter excludes columns
claimed by *any* file of the same detected type (plus the file's own
truthy parsed coordinates, even when not relevant), while the JSON
formatter excludes exactly the columns identified for the file itself. -/
theorem C5_amended (all_results : List FileRecord)
    (all_analyses : List (String × List String)) :
    format_consolidated_summary all_results all_analyses
      = (all_results.map (fun r =>
          (jsonFieldRowsAndCols r).1
            ++ textOrigRows (buildIdMap all_results (fileTypeOf r)) all_analyses r)).flatten
    ∧ format_consolidated_summary_json all_results all_analyses
      = (all_results.map (fun r =>
          (jsonFieldRowsAndCols r).1
            ++ jsonOrigRows all_analyses r (jsonFieldRowsAndCols r).2)).flatten := by
  constructor
  · simp only [format_consolidated_summary, textFileRows, textFieldRows_eq]
  · rfl

/-- C6: the cross-file correlator.  A batch with a single successfully
analyzed file yields an empty index; a column contained in at most one
file is absent; a column contained in exactly `k ≥ 2` files maps to
those `k` file keys with count `k`. -/
theorem C6_common_columns :
    (∀ (analyses : List (String × List String)) (col : String),
      analyses.length = 1 → find_common_columns analyses col = none)
    ∧ (∀ (analyses : List (String × List String)) (col : String),
        (analyses.filter (fun a => a.2.contains col)).length ≤ 1 →
        find_common_columns analyses col = none)
    ∧ (∀ (analyses : List (String × List String)) (col : String) (k : Nat),
        2 ≤ k →
        (analyses.filter (fun a => a.2.contains col)).length = k →
        find_common_columns analyses col =
          some ((analyses.filter (fun a => a.2.contains col)).map (fun a => a.1), k)) := by
  refine ⟨?_, ?_, ?_⟩
  · intro analyses col h
    simp [find_common_columns, h]
  · intro analyses col h
    by_cases hlen : analyses.length > 1
    · have : ((analyses.filter (fun a => a.2.contains col)).map (fun a => a.1)).length ≤ 1 := by
        simpa using h
      simp only [find_common_columns, if_pos hlen]
      rw [if_neg]
      omega
    · simp [find_common_columns, hlen]
  · intro analyses col k hk h
    have hflen : ((analyses.filter (fun a => a.2.contains col)).map (fun a => a.1)).length = k := by
      simpa using h
    have hlen : analyses.length > 1 := by
      have hle := List.length_filter_le (fun a => a.2.contains col) analyses
      omega
    simp only [find_common_columns, if_pos hlen]
    rw [if_pos (by omega), hflen]

/-- C6, witness: column `H` occurs in exactly files `a` and `b` of a
three-file batch. -/
theorem C6_common_columns_witness :
    find_common_columns [("a", ["H"]), ("b", ["H"]), ("c", ["X"])] "H"
      = some (["a", "b"], 2) :=
  (C6_common_columns.2.2 [("a", ["H"]), ("b", ["H"]), ("c", ["X"])] "H" 2
    (by decide) (by decide)).trans (by decide)

/-- C7: the column parser on the two specification examples — a labelled
`HOLE NAME` with a parenthesised confidence and a dash comment yields
found `DHID` with comment `unique per row`; a `NOT FOUND` answer yields
an absent hole id, never the literal token `NOT`. -/
theorem C7_hole_examples :
    (parse_column_identification_result
        "HOLE NAME: DHID (confidence: high) - unique per row").map
        (fun r => r.hole_id)
      = some ⟨some "DHID", "unique per row"⟩
    ∧ (parse_column_identification_result "HOLE NAME: NOT FOUND").map
        (fun r => r.hole_id.found)
      = some none := by
  constructor
  · rfl
  · rfl

/-- C8: for a file whose detected type is `Collar` the JSON formatter
emits identified-field rows only for Hole ID and the three coordinate
axes, whatever the stage text parsed into the other slots; and any
detected type outside the five known names (including `Unknown`) has an
empty relevant-field table and produces no identified-field rows at all. -/
theorem C8_relevant_fields :
    (∀ (r : FileRecord) (row : Row), fileTypeOf r = "Collar" →
      row ∈ (jsonFieldRowsAndCols r).1 →
      row.field = "Hole ID" ∨ row.field = "Coordinates X"
        ∨ row.field = "Coordinates Y" ∨ row.field = "Coordinates Z")
    ∧ (∀ ft : String, ft ∉ knownTypes →
        get_relevant_fields_for_file_type ft = [])
    ∧ (∀ r : FileRecord, fileTypeOf r ∉ knownTypes →
        (jsonFieldRowsAndCols r).1 = []) := by
  have hrel : ∀ ft : String, ft ∉ knownTypes →
      get_relevant_fields_for_file_type ft = [] := by
    intro ft h
    rw [get_relevant_fields_for_file_type]
    split_ifs with h1 h2 h3 h4 h5
    · exact absurd (by simp [knownTypes, h1]) h
    · exact absurd (by simp [knownTypes, h2]) h
    · exact absurd (by simp [knownTypes, h3]) h
    · exact absurd (by simp [knownTypes, h4]) h
    · exact absurd (by simp [knownTypes, h5]) h
    · rfl
  refine ⟨?_, hrel, ?_⟩
  · intro r row h hrow
    simp only [jsonFieldRowsAndCols, h] at hrow
    rw [show get_relevant_fields_for_file_type "Collar"
        = ["hole_id", "coordinates"] from rfl] at hrow
    rw [show (["hole_id", "coordinates"] : List String).contains "hole_id"
        = true from rfl] at hrow
    rw [show (["hole_id", "coordinates"] : List String).contains "coordinates"
        = true from rfl] at hrow
    rw [show (["hole_id", "coordinates"] : List String).contains "dip"
        = false from rfl] at hrow
    rw [show (["hole_id", "coordinates"] : List String).contains "azimuth"
        = false from rfl] at hrow
    rw [show (["hole_id", "coordinates"] : List String).contains "depth"
        = false from rfl] at hrow
    rw [show (["hole_id", "coordinates"] : List String).contains "from"
        = false from rfl] at hrow
    rw [show (["hole_id", "coordinates"] : List String).contains "to"
        = false from rfl] at hrow
    rw [show (["hole_id", "coordinates"] : List String).contains "grades"
        = false from rfl] at hrow
    rw [show (["hole_id", "coordinates"] : List String).contains "density"
        = false from rfl] at hrow
    rw [show (["hole_id", "coordinates"] : List String).contains "lithology"
        = false from rfl] at hrow
    simp only [sfBlock, coordBlock, gradesBlock] at hrow
    simp at hrow
    rcases hrow with h1 | h1 | h1 | h1 <;> simp [h1]
  · intro r h
    have h0 := hrel (fileTypeOf r) h
    simp only [jsonFieldRowsAndCols, h0]
    rw [show ([] : List String).contains "hole_id" = false from rfl,
        show ([] : List String).contains "coordinates" = false from rfl,
        show ([] : List String).contains "dip" = false from rfl,
        show ([] : List String).contains "azimuth" = false from rfl,
        show ([] : List String).contains "depth" = false from rfl,
        show ([] : List String).contains "from" = false from rfl,
        show ([] : List String).contains "to" = false from rfl,
        show ([] : List String).contains "grades" = false from rfl,
        show ([] : List String).contains "density" = false from rfl,
        show ([] : List String).contains "lithology" = false from rfl]
    simp [sfBlock, coordBlock, gradesBlock]

/-- C8, witness: a concrete Collar file emits a Hole ID row; the type
`Unknown` (and e.g. an upper-cased `ASSAY`) has an empty relevant set. -/
theorem C8_relevant_fields_witness :
    (fileTypeOf ⟨"x", "FILE TYPE: Collar", "DIP: D", ""⟩ = "Collar"
      ∧ ((Row.mk "Collar" "Hole ID" "None" "").field = "Hole ID"
          ∨ (Row.mk "Collar" "Hole ID" "None" "").field = "Coordinates X"
          ∨ (Row.mk "Collar" "Hole ID" "None" "").field = "Coordinates Y"
          ∨ (Row.mk "Collar" "Hole ID" "None" "").field = "Coordinates Z"))
    ∧ get_relevant_fields_for_file_type "Unknown" = [] := by
  refine ⟨⟨by decide, ?_⟩, ?_⟩
  · exact C8_relevant_fields.1 ⟨"x", "FILE TYPE: Collar", "DIP: D", ""⟩
      (Row.mk "Collar" "Hole ID" "None" "") (by decide) (by decide)
  · exact C8_relevant_fields.2.1 "Unknown" (by decide)

/-- C9: the API batch entry point returns an empty list — without
raising — for every directory listing that contains no `.csv` file,
whatever the inference oracle would do. -/
theorem C9_no_files (listing : List String) (oracle : String → FileSpec)
    (h : ∀ fn ∈ listing, pyEndsWith fn.data ".csv".data = false) :
    run_analysis_api listing oracle = .ok [] := by
  have hd : discover_files_api listing = [] := by
    rw [discover_files_api, List.filterMap_eq_nil_iff]
    intro fn hfn
    simp [h fn hfn]
  simp [run_analysis_api, hd]

/-- C9, witness: a directory with two non-CSV entries. -/
theorem C9_no_files_witness :
    run_analysis_api ["readme.txt", "data.xlsx"]
        (fun k => ⟨k, true, none, none, none⟩) = .ok [] :=
  C9_no_files ["readme.txt", "data.xlsx"] (fun k => ⟨k, true, none, none, none⟩)
    (by decide)

/-- C10: for a column-result text with no `DEPTH (AT):` label, whenever
one of AT, DEPTH, MD, MEASURED_DEPTH, FROM_DEPTH, TO_DEPTH occurs as a
standalone whole word anywhere in the text (case-insensitively,
including ordinary prose such as the word "at"), the parser sets
`depth.found` to the first matching entry of that fallback list — a list
name, not a verified column of the file — with comment
`"Depth measurement"`. -/
theorem C10_depth_fallback (s : String) (r : ParsedCols)
    (hp : parse_column_identification_result s = some r)
    (hno : labelOccurs depthAtLabel s.data = false)
    (hw : wholeWord "AT".data s.data = true
      ∨ wholeWord "DEPTH".data s.data = true
      ∨ wholeWord "MD".data s.data = true
      ∨ wholeWord "MEASURED_DEPTH".data s.data = true
      ∨ wholeWord "FROM_DEPTH".data s.data = true
      ∨ wholeWord "TO_DEPTH".data s.data = true) :
    r.depth.found = depthCols.find? (fun c => wholeWord c.data s.data)
      ∧ r.depth.comment = "Depth measurement" := by
  have hs : s ≠ "" := by
    intro he
    subst he
    simp [parse_column_identification_result] at hp
  have hr : r = parseRecord s := by
    rw [parse_column_identification_result, if_neg hs] at hp
    exact (Option.some.injEq _ _ ▸ hp).symm
  subst hr
  have hn : searchTok depthAtLabel s.data = none :=
    searchTok_none_of_no_label depthAtLabel s.data hno
  have hex : (depthCols.find? (fun c => wholeWord c.data s.data)).isSome := by
    rw [List.find?_isSome]
    rcases hw with h | h | h | h | h | h
    · exact ⟨"AT", by decide, h⟩
    · exact ⟨"DEPTH", by decide, h⟩
    · exact ⟨"MD", by decide, h⟩
    · exact ⟨"MEASURED_DEPTH", by decide, h⟩
    · exact ⟨"FROM_DEPTH", by decide, h⟩
    · exact ⟨"TO_DEPTH", by decide, h⟩
  obtain ⟨c, hc⟩ := Option.isSome_iff_exists.mp hex
  have hd : (parseRecord s).depth = parseDepth s.data := rfl
  rw [hd, parseDepth, hn, hc]
  exact ⟨rfl, rfl⟩

/-- C10, witness: plain prose containing the English word "at" triggers
the fallback and reports the list entry `AT`. -/
theorem C10_depth_fallback_witness :
    (parseRecord "we looked at the rocks").depth.found = some "AT"
      ∧ (parseRecord "we looked at the rocks").depth.comment
          = "Depth measurement" := by
  have h := C10_depth_fallback "we looked at the rocks"
    (parseRecord "we looked at the rocks") (by decide) (by decide)
    (Or.inl (by decide))
  exact ⟨h.1.trans (by decide), h.2⟩
